import Mathlib

/-!
# Verification of the OCRProyecto PDF processing pipeline

Shallow embedding of the core modules of the repository:

* `src/src/pdf_analyzer.py`  (class `PDFAnalyzer`)
* `src/src/pdf_processor.py` (class `PDFProcessor`)
* `src/src/ocr_processor.py` (class `OCRProcessor`)
* `src/src/utils.py`         (`generate_output_filename`)

External effects (the filesystem, the PyMuPDF reader, the OCRmyPDF backend,
the per-page Tesseract runs) are modelled by explicit environment values:
a document is its list of page texts, a read that can fail is an `Option`,
and the success or failure of each external OCR invocation is a boolean
field of an environment record.  The control flow of the Python functions
is translated statement by statement.
-/

namespace OCRProyecto

/-! ## DocumentAnalyzer — `src/src/pdf_analyzer.py` -/

/-- `PDFAnalyzer.__init__(self, min_text_length: int = 50)`. -/
structure PDFAnalyzer where
  min_text_length : Nat := 50

/-- An analyzer built with the default constructor argument. -/
def defaultAnalyzer : PDFAnalyzer := {}

/-- Python `''.join(c for c in total_text if c.isalnum() or c.isspace())`
(pdf_analyzer.py line 108).  ASCII alphanumerics stand in for Python's
unicode-aware `str.isalnum`. -/
def keepMeaningful (s : String) : String :=
  String.mk (s.data.filter (fun c => c.isAlphanum || c.isWhitespace))

/-- Python `str.strip()`: remove leading and trailing whitespace. -/
def pyStrip (s : String) : String :=
  String.mk
    (((s.data.dropWhile Char.isWhitespace).reverse.dropWhile Char.isWhitespace).reverse)

/-- `PDFAnalyzer.has_embedded_text` (pdf_analyzer.py lines 82-115).
`doc = none` models `fitz.open` (or a page read) raising: the `except`
branch returns `(False, 0)`.  Otherwise the text of the first
`min(5, total_pages)` pages is concatenated, filtered to alphanumeric
and whitespace characters, stripped, and its length compared with the
threshold; the page count of the whole document is returned alongside. -/
def PDFAnalyzer.has_embedded_text (a : PDFAnalyzer) (doc : Option (List String)) :
    Bool × Nat :=
  match doc with
  | none => (false, 0)
  | some pages =>
    let total_text := String.join (pages.take 5)
    let meaningful_text := keepMeaningful total_text
    (decide ((pyStrip meaningful_text).length > a.min_text_length), pages.length)

/-- One entry of the `page_analysis` list built by `PDFAnalyzer.analyze_pages`
(pdf_analyzer.py lines 182-192); the geometric fields play no role in any
claim and are omitted. -/
structure PageInfo where
  page_number : Nat
  text_length : Nat
  has_meaningful_text : Bool
deriving DecidableEq

/-- Body of the per-page loop of `analyze_pages`:
`text_length = len(text.strip())`, `has_meaningful_text = text_length > 20`. -/
def mkPageInfo (idx : Nat) (text : String) : PageInfo :=
  { page_number := idx + 1
    text_length := (pyStrip text).length
    has_meaningful_text := decide ((pyStrip text).length > 20) }

/-- `PDFAnalyzer.analyze_pages` (pdf_analyzer.py lines 150-201): analyzes the
first `min(max_pages, len(doc))` pages; any read error yields `[]`. -/
def PDFAnalyzer.analyze_pages (doc : Option (List String)) (max_pages : Nat := 10) :
    List PageInfo :=
  match doc with
  | none => []
  | some pages => (pages.take max_pages).enum.map (fun p => mkPageInfo p.1 p.2)

/-- `PDFAnalyzer._calculate_text_coverage` (pdf_analyzer.py lines 203-217). -/
def calculate_text_coverage (page_analysis : List PageInfo) : ℚ :=
  if page_analysis.isEmpty then 0
  else ((page_analysis.countP (·.has_meaningful_text) : ℚ) /
        (page_analysis.length : ℚ)) * 100

/-- The four strings returned by `PDFAnalyzer._get_recommendation`
(pdf_analyzer.py lines 230-240), as an enumeration:
`noOcrNeeded`   = "El PDF ya tiene texto embebido. No necesita OCR.",
`partialOcr`    = "El PDF tiene texto parcial. Considera OCR para completar.",
`ocrRecommended`= "El PDF tiene poco texto. Se recomienda OCR.",
`ocrRequired`   = "PDF escaneado detectado. Se requiere OCR para hacerlo buscable." -/
inductive Recommendation
  | noOcrNeeded
  | partialOcr
  | ocrRecommended
  | ocrRequired
deriving DecidableEq

/-- `PDFAnalyzer._get_recommendation` (pdf_analyzer.py lines 219-240). -/
def get_recommendation (has_text : Bool) (page_analysis : List PageInfo) :
    Recommendation :=
  if has_text then
    let text_coverage := calculate_text_coverage page_analysis
    if text_coverage > 80 then .noOcrNeeded
    else if text_coverage > 50 then .partialOcr
    else .ocrRecommended
  else .ocrRequired

/-- The dictionary returned by `PDFAnalyzer.analyze_pdf` (the fields the
claims are about; file metadata and `detailed_info` are omitted). -/
structure AnalysisResult where
  success : Bool
  error : Option String := none
  has_embedded_text : Bool := false
  page_count : Nat := 0
  text_coverage : ℚ := 0
  recommendation : Option Recommendation := none
  page_analysis : List PageInfo := []
  processing_needed : Bool := false
deriving DecidableEq

/-- `PDFAnalyzer.analyze_pdf` (pdf_analyzer.py lines 31-80).
`file_on_disk` models `os.path.exists(pdf_path)`; `doc` models what the
PyMuPDF reader delivers (`none` = every open/read of the document raises,
which `has_embedded_text` and `analyze_pages` swallow internally).
Note line 66 of the source: `'processing_needed': not has_text`. -/
def PDFAnalyzer.analyze_pdf (a : PDFAnalyzer) (file_on_disk : Bool)
    (doc : Option (List String)) : AnalysisResult :=
  if file_on_disk then
    let ht := a.has_embedded_text doc
    let page_analysis := PDFAnalyzer.analyze_pages doc 10
    { success := true
      has_embedded_text := ht.1
      page_count := ht.2
      text_coverage := calculate_text_coverage page_analysis
      recommendation := some (get_recommendation ht.1 page_analysis)
      page_analysis := page_analysis
      processing_needed := !ht.1 }
  else
    { success := false, error := some "Archivo no encontrado" }

/-! ## BatchOrchestrator — `src/src/pdf_processor.py` -/

/-- `result['processing_type']` in `PDFProcessor.process_file`. -/
inductive ProcessingType
  | ocr_applied
  | copy_only
deriving DecidableEq

/-- The per-file result dictionary of `PDFProcessor.process_file`
(the fields the claims are about). -/
structure FileResult where
  success : Bool
  error : Option String := none
  processing_type : Option ProcessingType := none
deriving DecidableEq

/-- Environment of one `PDFProcessor.process_file` call: whether the input
path exists, the analysis the call obtains, and the outcomes of the two
possible external actions (the OCR engine call and the `shutil.copy2`). -/
structure FileEnv where
  input_exists : Bool
  analysis : AnalysisResult
  ocr_ok : Bool
  copy_ok : Bool

/-- `PDFProcessor.process_file` (pdf_processor.py lines 100-243), reduced to
its decision structure: validate existence, bail out on failed analysis,
then `needs_ocr = not analysis['has_embedded_text'] or force_ocr`
(line 167) selects the OCR branch (`processing_type = 'ocr_applied'`)
versus the copy branch (`processing_type = 'copy_only'`). -/
def PDFProcessor.process_file (env : FileEnv) (force_ocr : Bool) : FileResult :=
  if !env.input_exists then
    { success := false, error := some "Archivo no encontrado" }
  else if !env.analysis.success then
    { success := false, error := env.analysis.error }
  else
    let needs_ocr := !env.analysis.has_embedded_text || force_ocr
    if needs_ocr then
      { success := env.ocr_ok
        error := if env.ocr_ok then none else some "Error durante procesamiento"
        processing_type := some .ocr_applied }
    else
      { success := env.copy_ok
        error := if env.copy_ok then none else some "Error al copiar archivo"
        processing_type := some .copy_only }

/-- Body of the per-file loop of `PDFProcessor.process_batch`
(pdf_processor.py lines 266-296): `process_file` never lets an exception
escape, and the loop's own `try/except` converts any residual exception
into an error entry; `f` maps a path to either a result (`ok`) or a
raised exception message (`error`). -/
def batch_item {α : Type} (f : α → Except String FileResult) (p : α) : FileResult :=
  match f p with
  | .ok r => r
  | .error e => { success := false, error := some e }

/-- `PDFProcessor.process_batch` (pdf_processor.py lines 245-310): one result
is appended per input path, in input order. -/
def PDFProcessor.process_batch {α : Type} (f : α → Except String FileResult)
    (paths : List α) : List FileResult :=
  paths.map (batch_item f)

/-- The running counters in `PDFProcessor.stats`
(pdf_processor.py lines 43-51). -/
structure Stats where
  files_processed : Nat := 0
  files_with_ocr : Nat := 0
  files_copied : Nat := 0
  total_size_processed : Nat := 0
  errors : Nat := 0

/-- The `success_rate` computed by `PDFProcessor.get_stats`
(pdf_processor.py lines 348-351):
`(files_processed / max(files_processed + errors, 1)) * 100`. -/
def PDFProcessor.success_rate (s : Stats) : ℚ :=
  ((s.files_processed : ℚ) /
    ((max (s.files_processed + s.errors) 1 : Nat) : ℚ)) * 100

/-! ## OcrEngine — `src/src/ocr_processor.py` -/

/-- The OCRmyPDF option dictionaries built by `OCRProcessor.process_pdf`
(only the named fields the spec and claims mention). -/
structure OcrOptions where
  language : String
  optimize : Nat
  clean : Bool
  deskew : Bool
  remove_background : Bool
  rotate_pages : Bool
  force_ocr : Bool
deriving DecidableEq

/-- `OCRProcessor.default_config` (ocr_processor.py lines 55-64) together
with the `force_ocr` entry read from the caller's config (line 185). -/
def default_ocr_options (language : String) (force_ocr : Bool) : OcrOptions :=
  { language := language
    optimize := 1
    clean := true
    deskew := true
    remove_background := false
    rotate_pages := true
    force_ocr := force_ocr }

/-- The `minimal_options` dictionary of the tertiary ("ultra-básica") retry
(ocr_processor.py lines 226-235). -/
def minimal_options (language : String) : OcrOptions :=
  { language := language
    optimize := 0
    clean := false
    deskew := false
    remove_background := false
    rotate_pages := false
    force_ocr := true }

/-- The zoom matrix of the secondary fallback's rasterization:
`fitz.Matrix(2, 2)` (ocr_processor.py line 339). -/
def fallbackZoom : Nat × Nat := (2, 2)

/-- The three OCR strategies of `OCRProcessor.process_pdf`, in the order the
nested `try/except` blocks attempt them. -/
inductive Strategy
  | primary
  | secondary
  | tertiary
deriving DecidableEq

/-- Environment of one `OCRProcessor.process_pdf` call.  Each field records
the outcome of one external action the code performs:

* `input_exists`    — `os.path.exists(input_path)`;
* `probe_doc_ok`    — `fitz.open` inside `_handle_encrypted_pdf` succeeds;
* `encrypted`       — `doc.is_encrypted`;
* `unlock_ok`       — `doc.authenticate("")` succeeds;
* `primary_ok`      — the full-option `ocrmypdf.ocr` call succeeds;
* `fallback_doc_ok` — the opening steps of `_tesseract_fallback_ocr`
                      (`fitz.open`, `tempfile.mkdtemp`) succeed;
* `pages`           — per page of the document, whether the per-page
                      Tesseract run produced a single-page PDF;
* `raster_crash`    — `some j` when the page loop raises while processing
                      page `j` (`doc[page_num]`, `page.get_pixmap` or
                      `pix.save`, lines 338-341, sit outside the inner
                      per-page `try` and abort the loop into the
                      method-level `except` at line 377); a `some j` with
                      `j ≥ len(doc)` means no crash (the loop finished);
* `combine_ok`      — `_combine_pdfs` succeeds;
* `tertiary_ok`     — the `minimal_options` `ocrmypdf.ocr` call succeeds. -/
structure OcrEnv where
  input_exists : Bool
  probe_doc_ok : Bool
  encrypted : Bool
  unlock_ok : Bool
  primary_ok : Bool
  fallback_doc_ok : Bool
  pages : List Bool
  raster_crash : Option Nat
  combine_ok : Bool
  tertiary_ok : Bool

/-- The pages of the output document built by `_tesseract_fallback_ocr`
(ocr_processor.py lines 330-367), as indices into the input document:
the loop walks the pages in order, and `ocr_results` collects the
single-page PDFs of exactly the pages whose Tesseract run succeeded;
`_combine_pdfs` then concatenates them in list order. -/
def tesseract_fallback_output (pages : List Bool) : List Nat :=
  pages.enum.filterMap (fun p => cond p.2 (some p.1) none)

/-- Whether the page loop of `_tesseract_fallback_ocr` aborts: a recorded
crash index is effective only when it names an actual page of the
document. -/
def OCRProcessor.fallback_crashes (env : OcrEnv) : Bool :=
  match env.raster_crash with
  | some j => decide (j < env.pages.length)
  | none => false

/-- Return value of `_tesseract_fallback_ocr` (ocr_processor.py
lines 302-379): `True` exactly when the document opened, the page loop
ran to completion (a `get_pixmap`/`pix.save` raise aborts into the
method-level `except`, which returns `False`), at least one page was
recognized (`ocr_results` non-empty) and `_combine_pdfs` did not raise
(a raise there is also caught by the method's own `except`, which
returns `False`). -/
def OCRProcessor.tesseract_fallback_ok (env : OcrEnv) : Bool :=
  env.fallback_doc_ok && !OCRProcessor.fallback_crashes env &&
    env.pages.any id && env.combine_ok

/-- Whether the nested strategy chain of `process_pdf` (lines 198-244)
completes without raising: the primary call succeeded, or the Tesseract
fallback returned `True`, or the minimal-configuration retry succeeded.
Each successful strategy writes the output file, so this is also
`os.path.exists(output_path)` at line 257. -/
def OCRProcessor.chain_ok (env : OcrEnv) : Bool :=
  env.primary_ok || OCRProcessor.tesseract_fallback_ok env || env.tertiary_ok

/-- The strategies attempted, in attempt order: `primary` always runs; its
`except` runs the `secondary` fallback; the fallback's failure (return
`False` or raise) triggers the `tertiary` minimal retry. -/
def OCRProcessor.attempted (env : OcrEnv) : List Strategy :=
  [Strategy.primary] ++
    (if env.primary_ok then []
     else [Strategy.secondary] ++
       (if OCRProcessor.tesseract_fallback_ok env then [] else [Strategy.tertiary]))

/-- Whether `_handle_encrypted_pdf` (lines 457-504) created a temporary
decrypted copy: the probe opened, the document is encrypted, and the
empty-credential unlock succeeded (every failure is caught inside the
method, which then returns the original path). -/
def OCRProcessor.temp_created (env : OcrEnv) : Bool :=
  env.input_exists && env.probe_doc_ok && env.encrypted && env.unlock_ok

/-- Whether the temporary decrypted copy is deleted.  The `os.unlink` of
lines 246-251 sits inside the outer `try`, directly after the strategy
chain: it runs exactly when a temp file was created and the chain
completed without raising.  When all three strategies fail, the raised
aggregate exception jumps to the handler at lines 288-300, which returns
the failure dictionary without any cleanup. -/
def OCRProcessor.temp_deleted (env : OcrEnv) : Bool :=
  OCRProcessor.temp_created env && OCRProcessor.chain_ok env

/-- The progress percentages `_handle_encrypted_pdf` reports (lines 472-483):
`5` before the probe, and `7` once an encrypted document is detected. -/
def handleEncryptedTrace (env : OcrEnv) : List ℚ :=
  [5] ++ (if env.probe_doc_ok && env.encrypted then [7] else [])

/-- The per-page progress values of `_tesseract_fallback_ocr` (line 334):
`45 + (page_num / len(doc)) * 40` for `page_num = 0, …, n-1`. -/
def pageProgress (n : Nat) : List ℚ :=
  (List.range n).map (fun i : Nat => 45 + ((i : ℚ) * 40) / (n : ℚ))

/-- The progress values the page loop of `_tesseract_fallback_ocr` reports
(lines 332-363).  The per-page callback sits at the top of the loop body
(line 334), so a crash while processing page `j` emits the values for
pages `0, …, j` and then aborts — the `85` of the combining step
(line 363) is never reached.  Without a crash all per-page values are
emitted followed by `85` (even when no page was recognized). -/
def fallbackLoopTrace (env : OcrEnv) : List ℚ :=
  match env.raster_crash with
  | some j =>
    if j < env.pages.length then (pageProgress env.pages.length).take (j + 1)
    else pageProgress env.pages.length ++ [85]
  | none => pageProgress env.pages.length ++ [85]

/-- The progress percentages `_tesseract_fallback_ocr` reports: `45` before
opening the document (line 324); then, if the opening steps succeeded,
the page-loop values. -/
def fallbackTrace (env : OcrEnv) : List ℚ :=
  [45] ++ (if env.fallback_doc_ok then fallbackLoopTrace env else [])

/-- The percentages reported while the strategy chain runs: nothing when the
primary `ocrmypdf.ocr` call succeeds; on primary failure `40` (line 209)
followed by the fallback values, and — when the fallback also fails —
the `50` of the minimal-configuration retry (line 222). -/
def fallbackStageTrace (env : OcrEnv) : List ℚ :=
  if env.primary_ok then []
  else
    [40] ++ fallbackTrace env ++
      (if OCRProcessor.tesseract_fallback_ok env then [] else [50])

/-- The percentages reported after the strategy chain: `90` (line 254) and
`100` (line 274) when some strategy succeeded, else the `-1` failure
sentinel emitted by the exception handler (line 293). -/
def finalStageTrace (env : OcrEnv) : List ℚ :=
  if OCRProcessor.chain_ok env then [90, 100] else [-1]

/-- The full sequence of percentages `OCRProcessor.process_pdf` passes to
`progress_callback`, in call order (messages dropped):
`0` (line 161), the `_handle_encrypted_pdf` values, `10` (line 171),
`20` (line 195), the strategy-chain values and the final values.  A
missing input returns before any callback (lines 142-147). -/
def OCRProcessor.progressTrace (env : OcrEnv) : List ℚ :=
  if env.input_exists then
    [0] ++ handleEncryptedTrace env ++ [10, 20] ++ fallbackStageTrace env ++
      finalStageTrace env
  else []

/-- The result of `OCRProcessor.process_pdf` as far as the claims are
concerned: overall success, the strategies attempted, the temporary-copy
bookkeeping, and the reported progress values. -/
structure OcrResult where
  success : Bool
  attempted : List Strategy
  temp_created : Bool
  temp_deleted : Bool
  progress : List ℚ

/-- `OCRProcessor.process_pdf` (ocr_processor.py lines 126-300), assembled
from the pieces above.  A missing input fails immediately without
attempting any strategy; otherwise success is exactly the chain
completing (a successful strategy writes the output checked at
line 257). -/
def OCRProcessor.process_pdf (env : OcrEnv) : OcrResult :=
  if env.input_exists then
    { success := OCRProcessor.chain_ok env
      attempted := OCRProcessor.attempted env
      temp_created := OCRProcessor.temp_created env
      temp_deleted := OCRProcessor.temp_deleted env
      progress := OCRProcessor.progressTrace env }
  else
    { success := false
      attempted := []
      temp_created := false
      temp_deleted := false
      progress := [] }

/-! ## `utils.generate_output_filename` — `src/src/utils.py` lines 60-92 -/

/-- The k-th candidate output name: `base_name + ext` for `k = 0` (the name
tried before the loop), `base_name + "_" + str(k) + ext` for `k ≥ 1`. -/
def candidate (base_name ext : String) (k : Nat) : String :=
  if k = 0 then base_name ++ ext else base_name ++ "_" ++ toString k ++ ext

/-- The `while output_path.exists()` loop of `generate_output_filename`,
with explicit fuel (a real filesystem holds finitely many files, so the
Python loop terminates; `none` models exhausted fuel).  `ex` is the
`Path.exists` test on names in the output directory. -/
def findFreeName (ex : String → Bool) (base_name ext : String) :
    Nat → Nat → Option String
  | 0, _ => none
  | fuel + 1, k =>
    if ex (candidate base_name ext k) then
      findFreeName ex base_name ext fuel (k + 1)
    else
      some (candidate base_name ext k)

/-- `generate_output_filename` (utils.py lines 60-92): `base_name =
input_file.stem + suffix`, then the first name among `base_name + ext`,
`base_name + "_1" + ext`, `base_name + "_2" + ext`, … that does not
exist is returned. -/
def generate_output_filename (ex : String → Bool) (stem sfx ext : String)
    (fuel : Nat) : Option String :=
  findFreeName ex (stem ++ sfx) ext fuel 0

/-! ## Claim theorems -/

/-- C10: for a path that exists on disk but whose document cannot be opened
or read, `analyze_pdf` still returns `success = true`: the read error is
swallowed by `has_embedded_text` (which returns `(false, 0)`) and by
`analyze_pages` (which returns `[]`), so the result reports
`has_embedded_text = false`, `page_count = 0`, `text_coverage = 0` and
`processing_needed = true`, with no error at the analyze boundary. -/
theorem C10_unreadable_document_analysis (a : PDFAnalyzer) :
    (a.analyze_pdf true none).success = true ∧
    (a.analyze_pdf true none).has_embedded_text = false ∧
    (a.analyze_pdf true none).page_count = 0 ∧
    (a.analyze_pdf true none).text_coverage = 0 ∧
    (a.analyze_pdf true none).processing_needed = true ∧
    (a.analyze_pdf true none).error = none ∧
    (a.analyze_pdf true none).page_analysis = [] :=
  ⟨rfl, rfl, rfl, rfl, rfl, rfl, rfl⟩

/-- C2: in `process_file` the decision `needs_ocr = NOT has_embedded_text OR
force_ocr` selects `ocr_applied` versus `copy_only`, and for every
successful analysis the `processing_needed` field equals
`NOT has_embedded_text` (the same predicate with `force_ocr = false`,
since `analyze_pdf` takes no force flag). -/
theorem C2_processing_needed_iff (env : FileEnv) (force_ocr : Bool)
    (hin : env.input_exists = true) (hok : env.analysis.success = true) :
    ((PDFProcessor.process_file env force_ocr).processing_type
        = some ProcessingType.ocr_applied ↔
      (env.analysis.has_embedded_text = false ∨ force_ocr = true)) ∧
    ((PDFProcessor.process_file env force_ocr).processing_type
        = some ProcessingType.copy_only ↔
      ¬(env.analysis.has_embedded_text = false ∨ force_ocr = true)) ∧
    (∀ (a : PDFAnalyzer) (fd : Bool) (doc : Option (List String)),
      (a.analyze_pdf fd doc).success = true →
      (a.analyze_pdf fd doc).processing_needed
        = !(a.analyze_pdf fd doc).has_embedded_text) := by
  refine ⟨?_, ?_, ?_⟩
  · cases hA : env.analysis.has_embedded_text <;> cases force_ocr <;>
      simp [PDFProcessor.process_file, hin, hok, hA]
  · cases hA : env.analysis.has_embedded_text <;> cases force_ocr <;>
      simp [PDFProcessor.process_file, hin, hok, hA]
  · intro a fd doc hsucc
    cases fd with
    | true => simp [PDFAnalyzer.analyze_pdf]
    | false => simp [PDFAnalyzer.analyze_pdf] at hsucc

/-- Witness for C2: a concrete environment whose analysis succeeded without
embedded text; with `force_ocr = true` the OCR branch is chosen. -/
theorem C2_processing_needed_iff_witness :
    (PDFProcessor.process_file
        ⟨true, defaultAnalyzer.analyze_pdf true none, true, true⟩ true).processing_type
      = some ProcessingType.ocr_applied :=
  ((C2_processing_needed_iff
      ⟨true, defaultAnalyzer.analyze_pdf true none, true, true⟩ true rfl rfl).1).mpr
    (Or.inr rfl)

/-- C3: `has_embedded_text` samples at most the first `min(5, page_count)`
pages (the first component depends only on `pages.take 5`), keeps only
alphanumeric and whitespace characters, returns `true` exactly when the
stripped remaining text is strictly longer than `min_text_length`
(default 50), and returns the document's total page count. -/
theorem C3_has_embedded_text_spec (a : PDFAnalyzer) (pages : List String) :
    (a.has_embedded_text (some pages)).2 = pages.length ∧
    ((a.has_embedded_text (some pages)).1 = true ↔
      (pyStrip (String.mk ((String.join (pages.take 5)).data.filter
          (fun c => c.isAlphanum || c.isWhitespace)))).length
        > a.min_text_length) ∧
    (∀ qs : List String, qs.take 5 = pages.take 5 →
      (a.has_embedded_text (some qs)).1 = (a.has_embedded_text (some pages)).1) ∧
    defaultAnalyzer.min_text_length = 50 := by
  refine ⟨rfl, ?_, ?_, rfl⟩
  · simp [PDFAnalyzer.has_embedded_text, keepMeaningful]
  · intro qs h
    simp [PDFAnalyzer.has_embedded_text, keepMeaningful, h]

/-- Witness for C3: a sixth page cannot change the text verdict. -/
theorem C3_has_embedded_text_spec_witness :
    (defaultAnalyzer.has_embedded_text
        (some ["p1", "p2", "p3", "p4", "p5", "ignored tail page"])).1
      = (defaultAnalyzer.has_embedded_text
        (some ["p1", "p2", "p3", "p4", "p5"])).1 :=
  (C3_has_embedded_text_spec defaultAnalyzer ["p1", "p2", "p3", "p4", "p5"]).2.2.1
    ["p1", "p2", "p3", "p4", "p5", "ignored tail page"] rfl

/-- C8: `success_rate` is computed from the running counters as
`files_processed / max(files_processed + errors, 1) * 100`: it equals
`files_processed / (files_processed + errors) * 100` whenever at least
one file was attempted, is `0` (well-defined) when both counters are
zero, and always lies in `[0, 100]`. -/
theorem C8_success_rate_bounds (s : Stats) :
    0 ≤ PDFProcessor.success_rate s ∧
    PDFProcessor.success_rate s ≤ 100 ∧
    (0 < s.files_processed + s.errors →
      PDFProcessor.success_rate s =
        (s.files_processed : ℚ) / ((s.files_processed + s.errors : Nat) : ℚ) * 100) ∧
    (s.files_processed = 0 ∧ s.errors = 0 → PDFProcessor.success_rate s = 0) := by
  have h2 : (0 : ℚ) < ((max (s.files_processed + s.errors) 1 : Nat) : ℚ) := by
    exact_mod_cast lt_of_lt_of_le Nat.one_pos (le_max_right _ _)
  have h1 : (s.files_processed : ℚ)
      ≤ ((max (s.files_processed + s.errors) 1 : Nat) : ℚ) := by
    exact_mod_cast le_trans (Nat.le_add_right _ _) (le_max_left _ _)
  refine ⟨?_, ?_, ?_, ?_⟩
  · exact mul_nonneg (div_nonneg (Nat.cast_nonneg _) h2.le) (by norm_num)
  · have h3 : (s.files_processed : ℚ)
        / ((max (s.files_processed + s.errors) 1 : Nat) : ℚ) ≤ 1 :=
      (div_le_one h2).2 h1
    have := mul_le_mul_of_nonneg_right h3 (by norm_num : (0 : ℚ) ≤ 100)
    simpa [PDFProcessor.success_rate] using this
  · intro hpos
    have : max (s.files_processed + s.errors) 1 = s.files_processed + s.errors :=
      Nat.max_eq_left hpos
    simp [PDFProcessor.success_rate, this]
  · rintro ⟨hp, he⟩
    simp [PDFProcessor.success_rate, hp, he]

/-- Witness for C8: three successes and one error give a 75% rate. -/
theorem C8_success_rate_bounds_witness :
    PDFProcessor.success_rate ⟨3, 0, 0, 0, 1⟩ =
      (3 : ℚ) / ((3 + 1 : Nat) : ℚ) * 100 :=
  (C8_success_rate_bounds ⟨3, 0, 0, 0, 1⟩).2.2.1 (by decide)

/-- C4: `process_batch` returns one result per input path, in input order
(slot `i` is the independently computed outcome of path `i` alone), and
a raised failure for one path is recorded in its slot without aborting
or skipping any other path. -/
theorem C4_batch_order_and_isolation {α : Type} (f : α → Except String FileResult)
    (paths : List α) :
    (PDFProcessor.process_batch f paths).length = paths.length ∧
    (∀ i : Nat, (PDFProcessor.process_batch f paths)[i]? =
      (paths[i]?).map (batch_item f)) ∧
    (∀ (p : α) (e : String), f p = .error e →
      batch_item f p = { success := false, error := some e }) := by
  refine ⟨by simp [PDFProcessor.process_batch], ?_, ?_⟩
  · intro i
    simp [PDFProcessor.process_batch]
  · intro p e h
    simp [batch_item, h]

/-- Witness for C4: a batch of three paths where the middle one raises
keeps all three slots, recording the failure in the middle slot. -/
theorem C4_batch_order_and_isolation_witness :
    (PDFProcessor.process_batch
        (fun n : Nat => if n = 1 then .error "boom" else .ok { success := true })
        [0, 1, 2]).length = [0, 1, 2].length ∧
    batch_item
        (fun n : Nat => if n = 1 then .error "boom" else .ok { success := true }) 1
      = { success := false, error := some "boom" } :=
  ⟨(C4_batch_order_and_isolation
      (fun n : Nat => if n = 1 then .error "boom" else .ok { success := true })
      [0, 1, 2]).1,
   (C4_batch_order_and_isolation
      (fun n : Nat => if n = 1 then .error "boom" else .ok { success := true })
      [0, 1, 2]).2.2 1 "boom" rfl⟩

/-! ### Helper lemmas about the secondary-fallback page selection -/

/-- Membership in the fallback's collected page list, generalized over the
`enumFrom` start index. -/
lemma mem_fallback_enumFrom (bs : List Bool) : ∀ (n i : Nat),
    (i ∈ (List.enumFrom n bs).filterMap (fun p => cond p.2 (some p.1) none)
      ↔ ∃ j : Nat, i = n + j ∧ bs[j]? = some true) := by
  induction bs with
  | nil => intro n i; simp
  | cons b bs ih =>
    intro n i
    cases b with
    | false =>
      have hred : (List.enumFrom n (false :: bs)).filterMap
            (fun p => cond p.2 (some p.1) none)
          = (List.enumFrom (n + 1) bs).filterMap
            (fun p => cond p.2 (some p.1) none) := rfl
      rw [hred, ih (n + 1) i]
      constructor
      · rintro ⟨j, rfl, hj⟩
        exact ⟨j + 1, by omega, by simpa using hj⟩
      · rintro ⟨j, rfl, hj⟩
        cases j with
        | zero => simp at hj
        | succ j => exact ⟨j, by omega, by simpa using hj⟩
    | true =>
      have hred : (List.enumFrom n (true :: bs)).filterMap
            (fun p => cond p.2 (some p.1) none)
          = n :: (List.enumFrom (n + 1) bs).filterMap
            (fun p => cond p.2 (some p.1) none) := rfl
      rw [hred, List.mem_cons, ih (n + 1) i]
      constructor
      · rintro (rfl | ⟨j, rfl, hj⟩)
        · exact ⟨0, by omega, by simp⟩
        · exact ⟨j + 1, by omega, by simpa using hj⟩
      · rintro ⟨j, rfl, hj⟩
        cases j with
        | zero => exact Or.inl (by omega)
        | succ j => exact Or.inr ⟨j, by omega, by simpa using hj⟩

/-- The fallback's collected page indices are strictly increasing, i.e. the
surviving pages keep their original order. -/
lemma pairwise_fallback_enumFrom (bs : List Bool) : ∀ n : Nat,
    List.Pairwise (· < ·)
      ((List.enumFrom n bs).filterMap (fun p => cond p.2 (some p.1) none)) := by
  induction bs with
  | nil => intro n; simp
  | cons b bs ih =>
    intro n
    cases b with
    | false =>
      have hred : (List.enumFrom n (false :: bs)).filterMap
            (fun p => cond p.2 (some p.1) none)
          = (List.enumFrom (n + 1) bs).filterMap
            (fun p => cond p.2 (some p.1) none) := rfl
      rw [hred]
      exact ih (n + 1)
    | true =>
      have hred : (List.enumFrom n (true :: bs)).filterMap
            (fun p => cond p.2 (some p.1) none)
          = n :: (List.enumFrom (n + 1) bs).filterMap
            (fun p => cond p.2 (some p.1) none) := rfl
      rw [hred]
      refine List.Pairwise.cons ?_ (ih (n + 1))
      intro x hx
      rcases (mem_fallback_enumFrom bs (n + 1) x).1 hx with ⟨j, rfl, -⟩
      omega

lemma mem_tesseract_fallback_output (pages : List Bool) (i : Nat) :
    i ∈ tesseract_fallback_output pages ↔ pages[i]? = some true := by
  unfold tesseract_fallback_output List.enum
  rw [mem_fallback_enumFrom pages 0 i]
  constructor
  · rintro ⟨j, rfl, hj⟩
    simpa using hj
  · intro h
    exact ⟨i, by omega, h⟩

lemma fallback_output_ne_nil (pages : List Bool) :
    tesseract_fallback_output pages ≠ [] ↔ pages.any id = true := by
  rw [List.any_eq_true]
  constructor
  · intro h
    rcases List.exists_mem_of_ne_nil _ h with ⟨i, hi⟩
    rcases (mem_tesseract_fallback_output pages i).1 hi with h'
    have : true ∈ pages := by
      rcases List.getElem?_eq_some_iff.1 h' with ⟨hlt, hget⟩
      exact hget ▸ List.getElem_mem hlt
    exact ⟨true, this, rfl⟩
  · rintro ⟨b, hb, hbt⟩
    have hb' : true ∈ pages := by
      cases b
      · cases hbt
      · exact hb
    rcases List.mem_iff_getElem?.1 hb' with ⟨i, hi⟩
    intro hnil
    have := (mem_tesseract_fallback_output pages i).2 hi
    simp [hnil] at this

/-- C1: the single-document OCR call attempts the strategies strictly in
order primary → secondary → tertiary, each later strategy exactly when
the earlier ones failed; the secondary pass rasterizes at 2x, keeps the
successfully recognized pages in original order and drops failed pages;
the tertiary pass uses the minimal configuration (optimize 0, clean /
deskew / remove_background / rotate_pages off, force_ocr on); and
overall failure is reported only once all three strategies failed. -/
theorem C1_fallback_chain (env : OcrEnv) (hin : env.input_exists = true) :
    (OCRProcessor.process_pdf env).attempted ∈
      [[Strategy.primary],
       [Strategy.primary, Strategy.secondary],
       [Strategy.primary, Strategy.secondary, Strategy.tertiary]] ∧
    (Strategy.secondary ∈ (OCRProcessor.process_pdf env).attempted ↔
      env.primary_ok = false) ∧
    (Strategy.tertiary ∈ (OCRProcessor.process_pdf env).attempted ↔
      (env.primary_ok = false ∧ OCRProcessor.tesseract_fallback_ok env = false)) ∧
    ((OCRProcessor.process_pdf env).success = false ↔
      (env.primary_ok = false ∧ OCRProcessor.tesseract_fallback_ok env = false ∧
        env.tertiary_ok = false)) ∧
    ((OCRProcessor.process_pdf env).success = false →
      (OCRProcessor.process_pdf env).attempted
        = [Strategy.primary, Strategy.secondary, Strategy.tertiary]) ∧
    List.Pairwise (· < ·) (tesseract_fallback_output env.pages) ∧
    (∀ i : Nat,
      i ∈ tesseract_fallback_output env.pages ↔ env.pages[i]? = some true) ∧
    (OCRProcessor.tesseract_fallback_ok env = true ↔
      (env.fallback_doc_ok = true ∧ OCRProcessor.fallback_crashes env = false ∧
        tesseract_fallback_output env.pages ≠ [] ∧ env.combine_ok = true)) ∧
    fallbackZoom = (2, 2) ∧
    (∀ lang : String,
      (minimal_options lang).optimize = 0 ∧ (minimal_options lang).clean = false ∧
      (minimal_options lang).deskew = false ∧
      (minimal_options lang).remove_background = false ∧
      (minimal_options lang).rotate_pages = false ∧
      (minimal_options lang).force_ocr = true) := by
  refine ⟨?_, ?_, ?_, ?_, ?_, ?_, ?_, ?_, rfl, fun lang => ⟨rfl, rfl, rfl, rfl, rfl, rfl⟩⟩
  · cases hp : env.primary_ok <;> cases hfb : OCRProcessor.tesseract_fallback_ok env <;>
      simp [OCRProcessor.process_pdf, OCRProcessor.attempted, hin, hp, hfb]
  · cases hp : env.primary_ok <;> cases hfb : OCRProcessor.tesseract_fallback_ok env <;>
      simp [OCRProcessor.process_pdf, OCRProcessor.attempted, hin, hp, hfb]
  · cases hp : env.primary_ok <;> cases hfb : OCRProcessor.tesseract_fallback_ok env <;>
      simp [OCRProcessor.process_pdf, OCRProcessor.attempted, hin, hp, hfb]
  · cases hp : env.primary_ok <;> cases hfb : OCRProcessor.tesseract_fallback_ok env <;>
      cases ht : env.tertiary_ok <;>
      simp [OCRProcessor.process_pdf, OCRProcessor.chain_ok, hin, hp, hfb, ht]
  · cases hp : env.primary_ok <;> cases hfb : OCRProcessor.tesseract_fallback_ok env <;>
      cases ht : env.tertiary_ok <;>
      simp [OCRProcessor.process_pdf, OCRProcessor.attempted, OCRProcessor.chain_ok,
        hin, hp, hfb, ht]
  · exact pairwise_fallback_enumFrom env.pages 0
  · exact fun i => mem_tesseract_fallback_output env.pages i
  · rw [fallback_output_ne_nil]
    cases hd : env.fallback_doc_ok <;> cases ha : env.pages.any id <;>
      cases hc : env.combine_ok <;>
      cases hcr : OCRProcessor.fallback_crashes env <;>
      simp [OCRProcessor.tesseract_fallback_ok, hd, ha, hc, hcr]

/-- Witness for C1: with an existing input where the full pipeline and the
page fallback both fail, all three strategies are attempted in order. -/
theorem C1_fallback_chain_witness :
    (OCRProcessor.process_pdf
        ⟨true, true, false, false, false, true, [false], none, true, false⟩).attempted
      = [Strategy.primary, Strategy.secondary, Strategy.tertiary] :=
  (C1_fallback_chain
      ⟨true, true, false, false, false, true, [false], none, true, false⟩ rfl).2.2.2.2.1
    (by decide)

/-- C5 counterexample: an encrypted input unlocked into a temporary
decrypted copy (`temp_created = true`) for which all three OCR
strategies fail: the call returns a failure result with the temporary
copy never deleted, contradicting the claim that the copy is deleted
regardless of outcome. -/
theorem C5_temp_cleanup_counterexample :
    (OCRProcessor.process_pdf
        ⟨true, true, true, true, false, true, [false], none, true, false⟩).temp_created
        = true ∧
    (OCRProcessor.process_pdf
        ⟨true, true, true, true, false, true, [false], none, true, false⟩).success
        = false ∧
    (OCRProcessor.process_pdf
        ⟨true, true, true, true, false, true, [false], none, true, false⟩).temp_deleted
        = false := by
  refine ⟨rfl, by decide, by decide⟩

/-- C5 amended: the temporary decrypted copy is deleted exactly when the
strategy chain completes without raising (the `os.unlink` sits inside
the `try`, after the chain); in particular it is deleted on every
successful call, but when all three strategies fail the exception path
returns the failure result with the temporary copy still on disk. -/
theorem C5_temp_cleanup_amended (env : OcrEnv) :
    ((OCRProcessor.process_pdf env).temp_deleted
      = ((OCRProcessor.process_pdf env).temp_created && OCRProcessor.chain_ok env)) ∧
    ((OCRProcessor.process_pdf env).temp_created = true →
      (OCRProcessor.process_pdf env).success = true →
      (OCRProcessor.process_pdf env).temp_deleted = true) ∧
    ((OCRProcessor.process_pdf env).temp_created = true →
      (OCRProcessor.process_pdf env).success = false →
      (OCRProcessor.process_pdf env).temp_deleted = false) := by
  cases hin : env.input_exists <;>
    cases hch : OCRProcessor.chain_ok env <;>
    cases htc : OCRProcessor.temp_created env <;>
    simp_all [OCRProcessor.process_pdf, OCRProcessor.temp_deleted]

/-- Witness for C5 amended: a successful primary pass on an unlocked
encrypted document does delete the temporary copy. -/
theorem C5_temp_cleanup_amended_witness :
    (OCRProcessor.process_pdf
        ⟨true, true, true, true, true, true, [true], none, true, true⟩).temp_deleted
      = true :=
  (C5_temp_cleanup_amended
      ⟨true, true, true, true, true, true, [true], none, true, true⟩).2.1 rfl (by decide)

/-- C7 counterexample: a readable 10-page document whose first five pages
each hold 21 meaningful characters and whose last five are blank has
embedded text and a text coverage of exactly 50%, yet the code
recommends "OCR recommended" (the `elif text_coverage > 50` boundary is
strict), while the claim's decision table places coverage 50% in the
50-80% "partial OCR suggested" bucket. -/
theorem C7_recommendation_counterexample :
    (defaultAnalyzer.analyze_pdf true
        (some (List.replicate 5 "a23456789012345678901" ++ List.replicate 5 ""))
      ).has_embedded_text = true ∧
    (defaultAnalyzer.analyze_pdf true
        (some (List.replicate 5 "a23456789012345678901" ++ List.replicate 5 ""))
      ).text_coverage = 50 ∧
    (defaultAnalyzer.analyze_pdf true
        (some (List.replicate 5 "a23456789012345678901" ++ List.replicate 5 ""))
      ).recommendation = some Recommendation.ocrRecommended ∧
    Recommendation.ocrRecommended ≠ Recommendation.partialOcr := by
  have h1 : (PDFAnalyzer.analyze_pages
      (some (List.replicate 5 "a23456789012345678901" ++ List.replicate 5 "")) 10).countP
        (·.has_meaningful_text) = 5 := by decide
  have h2 : (PDFAnalyzer.analyze_pages
      (some (List.replicate 5 "a23456789012345678901" ++ List.replicate 5 "")) 10).length
      = 10 := by decide
  have hcov : calculate_text_coverage (PDFAnalyzer.analyze_pages
      (some (List.replicate 5 "a23456789012345678901" ++ List.replicate 5 "")) 10)
      = 50 := by
    rw [calculate_text_coverage, if_neg (by decide), h1, h2]
    norm_num
  have hht : (defaultAnalyzer.has_embedded_text
      (some (List.replicate 5 "a23456789012345678901" ++ List.replicate 5 ""))).1
      = true := by decide
  have hrec : get_recommendation true (PDFAnalyzer.analyze_pages
      (some (List.replicate 5 "a23456789012345678901" ++ List.replicate 5 "")) 10)
      = Recommendation.ocrRecommended := by
    simp only [get_recommendation, hcov]
    norm_num
  refine ⟨by decide, ?_, ?_, by decide⟩
  · show calculate_text_coverage (PDFAnalyzer.analyze_pages
      (some (List.replicate 5 "a23456789012345678901" ++ List.replicate 5 "")) 10) = 50
    exact hcov
  · show some (get_recommendation (defaultAnalyzer.has_embedded_text
        (some (List.replicate 5 "a23456789012345678901" ++ List.replicate 5 ""))).1
        (PDFAnalyzer.analyze_pages
          (some (List.replicate 5 "a23456789012345678901" ++ List.replicate 5 "")) 10))
      = some Recommendation.ocrRecommended
    rw [hht, hrec]

/-- Counting meaningful pages through `enumFrom` ignores the indices. -/
lemma countP_enumFrom (q : α → Bool) (l : List α) : ∀ n : Nat,
    (List.enumFrom n l).countP (fun p => q p.2) = l.countP q := by
  induction l with
  | nil => intro n; rfl
  | cons a l ih =>
    intro n
    simp only [List.enumFrom, List.countP_cons, ih (n + 1)]

/-- C7 amended: the decision table actually implemented — with embedded
text, coverage strictly above 80% yields "no OCR needed", coverage in
(50%, 80%] yields "partial OCR suggested", coverage at or below 50%
(including exactly 50%) yields "OCR recommended", and without embedded
text the recommendation is "OCR required"; coverage is the fraction of
the first `min(10, page_count)` pages whose stripped text exceeds 20
characters. -/
theorem C7_recommendation_amended (has_text : Bool) (pa : List PageInfo) :
    (has_text = true → calculate_text_coverage pa > 80 →
      get_recommendation has_text pa = Recommendation.noOcrNeeded) ∧
    (has_text = true → 50 < calculate_text_coverage pa →
      calculate_text_coverage pa ≤ 80 →
      get_recommendation has_text pa = Recommendation.partialOcr) ∧
    (has_text = true → calculate_text_coverage pa ≤ 50 →
      get_recommendation has_text pa = Recommendation.ocrRecommended) ∧
    (has_text = false → get_recommendation has_text pa = Recommendation.ocrRequired) ∧
    (∀ (a : PDFAnalyzer) (pages : List String), pages ≠ [] →
      (a.analyze_pdf true (some pages)).text_coverage =
        ((pages.take 10).countP (fun t => decide ((pyStrip t).length > 20)) : ℚ)
          / ((min 10 pages.length : Nat) : ℚ) * 100) := by
  refine ⟨?_, ?_, ?_, ?_, ?_⟩
  · rintro rfl h
    simp [get_recommendation, if_pos h]
  · rintro rfl h1 h2
    simp [get_recommendation, if_neg (not_lt.2 h2), if_pos h1]
  · rintro rfl h
    have h80 : ¬ calculate_text_coverage pa > 80 :=
      not_lt.2 (h.trans (by norm_num))
    simp [get_recommendation, if_neg (not_lt.2 h), if_neg h80]
  · rintro rfl
    simp [get_recommendation]
  · intro a pages hne
    have hpa : (a.analyze_pdf true (some pages)).text_coverage
        = calculate_text_coverage
          ((pages.take 10).enum.map (fun p => mkPageInfo p.1 p.2)) := rfl
    have hlen : ((pages.take 10).enum.map (fun p => mkPageInfo p.1 p.2)).length
        = min 10 pages.length := by
      simp [List.length_map, List.enum_length, List.length_take]
    have hne' : ((pages.take 10).enum.map (fun p => mkPageInfo p.1 p.2)).isEmpty
        = false := by
      cases pages with
      | nil => exact absurd rfl hne
      | cons x xs => simp [List.take]
    have hcount : ((pages.take 10).enum.map (fun p => mkPageInfo p.1 p.2)).countP
        (·.has_meaningful_text)
        = (pages.take 10).countP (fun t => decide ((pyStrip t).length > 20)) := by
      rw [List.countP_map]
      simpa [mkPageInfo, Function.comp] using
        countP_enumFrom (fun t => decide ((pyStrip t).length > 20)) (pages.take 10) 0
    rw [hpa, calculate_text_coverage, if_neg (by simp [hne']), hcount, hlen]

/-- Witness for C7 amended: ten sampled pages, six meaningful, give 60%
coverage and the "partial OCR suggested" recommendation. -/
theorem C7_recommendation_amended_witness :
    get_recommendation true
        (List.replicate 6 ⟨1, 25, true⟩ ++ List.replicate 4 ⟨1, 0, false⟩)
      = Recommendation.partialOcr := by
  have h6 : (List.replicate 6 (⟨1, 25, true⟩ : PageInfo)
      ++ List.replicate 4 (⟨1, 0, false⟩ : PageInfo)).countP (·.has_meaningful_text)
      = 6 := by decide
  have hl : (List.replicate 6 (⟨1, 25, true⟩ : PageInfo)
      ++ List.replicate 4 (⟨1, 0, false⟩ : PageInfo)).length = 10 := by decide
  have hcov : calculate_text_coverage
      (List.replicate 6 ⟨1, 25, true⟩ ++ List.replicate 4 ⟨1, 0, false⟩) = 60 := by
    rw [calculate_text_coverage, if_neg (by decide), h6, hl]
    norm_num
  exact (C7_recommendation_amended true
      (List.replicate 6 ⟨1, 25, true⟩ ++ List.replicate 4 ⟨1, 0, false⟩)).2.1
    rfl (by rw [hcov]; norm_num) (by rw [hcov]; norm_num)

/-! ### Helper lemmas about the reported progress values -/

/-- The relaxed step relation of the amended C6: a step either does not
decrease, or drops onto the tertiary retry's `50` from the failed
fallback's last reported value (at most `85`), or ends in the `-1`
sentinel. -/
def progMono (a b : ℚ) : Prop := a ≤ b ∨ (b = 50 ∧ a ≤ 85) ∨ b = -1

lemma pageProgress_mem {n : Nat} {v : ℚ} (hv : v ∈ pageProgress n) :
    45 ≤ v ∧ v < 85 := by
  unfold pageProgress at hv
  rcases List.mem_map.1 hv with ⟨i, hi, rfl⟩
  have hlt : i < n := List.mem_range.1 hi
  have hn : (0 : ℚ) < (n : ℚ) := by exact_mod_cast Nat.pos_of_ne_zero (by omega)
  constructor
  · have h0 : 0 ≤ ((i : ℚ) * 40) / (n : ℚ) := by positivity
    linarith
  · have h40 : ((i : ℚ) * 40) / (n : ℚ) < 40 := by
      rw [div_lt_iff hn]
      have hi' : (i : ℚ) < (n : ℚ) := by exact_mod_cast hlt
      nlinarith
    linarith

lemma pageProgress_pairwise (n : Nat) :
    List.Pairwise (· ≤ ·) (pageProgress n) := by
  unfold pageProgress
  refine List.Pairwise.map _ ?_ (List.pairwise_lt_range n)
  intro a b hab
  rcases Nat.eq_zero_or_pos n with hn | hn
  · simp [hn]
  · have hnq : (0 : ℚ) < (n : ℚ) := by exact_mod_cast hn
    have hab' : (a : ℚ) * 40 ≤ (b : ℚ) * 40 := by
      have h : (a : ℚ) ≤ (b : ℚ) := by exact_mod_cast hab.le
      nlinarith
    have := (div_le_div_right hnq).2 hab'
    linarith

lemma pageProgress_chain (n : Nat) : List.Chain' (· ≤ ·) (pageProgress n) :=
  (pageProgress_pairwise n).chain'

lemma handleEncryptedTrace_cases (env : OcrEnv) :
    handleEncryptedTrace env = [5] ∨ handleEncryptedTrace env = [5, 7] := by
  unfold handleEncryptedTrace
  cases env.probe_doc_ok && env.encrypted <;> simp

lemma handleEncryptedTrace_mem {env : OcrEnv} {v : ℚ}
    (hv : v ∈ handleEncryptedTrace env) : v = 5 ∨ v = 7 := by
  rcases handleEncryptedTrace_cases env with h | h <;> rw [h] at hv
  · exact Or.inl (by simpa using hv)
  · simpa using hv

lemma fallbackLoopTrace_cases (env : OcrEnv) :
    fallbackLoopTrace env = pageProgress env.pages.length ++ [85] ∨
    (∃ j : Nat, j < env.pages.length ∧
      fallbackLoopTrace env = (pageProgress env.pages.length).take (j + 1)) := by
  unfold fallbackLoopTrace
  cases hcr : env.raster_crash with
  | none => exact Or.inl rfl
  | some j =>
    by_cases hj : j < env.pages.length
    · refine Or.inr ⟨j, hj, ?_⟩
      show (if j < env.pages.length
          then (pageProgress env.pages.length).take (j + 1)
          else pageProgress env.pages.length ++ [85])
        = (pageProgress env.pages.length).take (j + 1)
      exact if_pos hj
    · refine Or.inl ?_
      show (if j < env.pages.length
          then (pageProgress env.pages.length).take (j + 1)
          else pageProgress env.pages.length ++ [85])
        = pageProgress env.pages.length ++ [85]
      exact if_neg hj

lemma fallbackLoopTrace_mem {env : OcrEnv} {v : ℚ}
    (hv : v ∈ fallbackLoopTrace env) : 45 ≤ v ∧ v ≤ 85 := by
  rcases fallbackLoopTrace_cases env with h | ⟨j, -, h⟩ <;> rw [h] at hv
  · rcases List.mem_append.1 hv with hv | hv
    · exact ⟨(pageProgress_mem hv).1, (pageProgress_mem hv).2.le⟩
    · have : v = 85 := by simpa using hv
      subst this
      exact ⟨by norm_num, by norm_num⟩
  · have hv' := List.take_subset (j + 1) _ hv
    exact ⟨(pageProgress_mem hv').1, (pageProgress_mem hv').2.le⟩

lemma fallbackLoopTrace_chain (env : OcrEnv) :
    List.Chain' (· ≤ ·) (fallbackLoopTrace env) := by
  rcases fallbackLoopTrace_cases env with h | ⟨j, -, h⟩ <;> rw [h]
  · refine List.chain'_append.2
      ⟨pageProgress_chain _, List.chain'_singleton _, ?_⟩
    intro x hx y hy
    have hy' : (85 : ℚ) = y := by simpa using hy
    subst hy'
    exact (pageProgress_mem (List.mem_of_mem_getLast? hx)).2.le
  · exact ((pageProgress_pairwise _).sublist (List.take_sublist _ _)).chain'

lemma fallbackTrace_eq_of_doc_fail {env : OcrEnv}
    (hd : env.fallback_doc_ok = false) : fallbackTrace env = [45] := by
  simp [fallbackTrace, hd]

lemma fallbackTrace_eq_of_doc_ok {env : OcrEnv}
    (hd : env.fallback_doc_ok = true) :
    fallbackTrace env = [45] ++ fallbackLoopTrace env := by
  simp [fallbackTrace, hd]

lemma fallbackTrace_mem {env : OcrEnv} {v : ℚ} (hv : v ∈ fallbackTrace env) :
    45 ≤ v ∧ v ≤ 85 := by
  cases hd : env.fallback_doc_ok
  · rw [fallbackTrace_eq_of_doc_fail hd] at hv
    have : v = 45 := by simpa using hv
    subst this
    exact ⟨by norm_num, by norm_num⟩
  · rw [fallbackTrace_eq_of_doc_ok hd] at hv
    rcases List.mem_append.1 hv with hv | hv
    · have : v = 45 := by simpa using hv
      subst this
      exact ⟨by norm_num, by norm_num⟩
    · exact fallbackLoopTrace_mem hv

lemma fallbackTrace_chain (env : OcrEnv) :
    List.Chain' (· ≤ ·) (fallbackTrace env) := by
  cases hd : env.fallback_doc_ok
  · rw [fallbackTrace_eq_of_doc_fail hd]
    exact List.chain'_singleton _
  · rw [fallbackTrace_eq_of_doc_ok hd]
    refine List.chain'_append.2
      ⟨List.chain'_singleton _, fallbackLoopTrace_chain env, ?_⟩
    intro x hx y hy
    have hx' : (45 : ℚ) = x := by simpa using hx
    subst hx'
    exact (fallbackLoopTrace_mem (List.mem_of_mem_head? hy)).1

lemma fallbackStageTrace_eq_of_primary_ok {env : OcrEnv}
    (hp : env.primary_ok = true) : fallbackStageTrace env = [] := by
  simp [fallbackStageTrace, hp]

lemma fallbackStageTrace_eq_of_fb_ok {env : OcrEnv}
    (hp : env.primary_ok = false)
    (hfb : OCRProcessor.tesseract_fallback_ok env = true) :
    fallbackStageTrace env = [40] ++ fallbackTrace env := by
  simp [fallbackStageTrace, hp, hfb]

lemma fallbackStageTrace_eq_of_fb_fail {env : OcrEnv}
    (hp : env.primary_ok = false)
    (hfb : OCRProcessor.tesseract_fallback_ok env = false) :
    fallbackStageTrace env = [40] ++ (fallbackTrace env ++ [50]) := by
  simp [fallbackStageTrace, hp, hfb]

lemma fallbackStageTrace_mem {env : OcrEnv} {v : ℚ}
    (hv : v ∈ fallbackStageTrace env) : 40 ≤ v ∧ v ≤ 85 := by
  cases hp : env.primary_ok
  · cases hfb : OCRProcessor.tesseract_fallback_ok env
    · rw [fallbackStageTrace_eq_of_fb_fail hp hfb] at hv
      rcases List.mem_append.1 hv with hv | hv
      · have : v = 40 := by simpa using hv
        subst this
        exact ⟨by norm_num, by norm_num⟩
      · rcases List.mem_append.1 hv with hv | hv
        · exact ⟨by linarith [(fallbackTrace_mem hv).1], (fallbackTrace_mem hv).2⟩
        · have : v = 50 := by simpa using hv
          subst this
          exact ⟨by norm_num, by norm_num⟩
    · rw [fallbackStageTrace_eq_of_fb_ok hp hfb] at hv
      rcases List.mem_append.1 hv with hv | hv
      · have : v = 40 := by simpa using hv
        subst this
        exact ⟨by norm_num, by norm_num⟩
      · exact ⟨by linarith [(fallbackTrace_mem hv).1], (fallbackTrace_mem hv).2⟩
  · rw [fallbackStageTrace_eq_of_primary_ok hp] at hv
    simp at hv

lemma fallbackStageTrace_chainR (env : OcrEnv) :
    List.Chain' progMono (fallbackStageTrace env) := by
  cases hp : env.primary_ok
  · cases hfb : OCRProcessor.tesseract_fallback_ok env
    · rw [fallbackStageTrace_eq_of_fb_fail hp hfb]
      refine List.chain'_append.2 ⟨List.chain'_singleton _, ?_, ?_⟩
      · refine List.chain'_append.2 ⟨(fallbackTrace_chain env).imp
          (fun _ _ h => Or.inl h), List.chain'_singleton _, ?_⟩
        intro x hx y hy
        have hy' : (50 : ℚ) = y := by simpa using hy
        subst hy'
        exact Or.inr (Or.inl
          ⟨rfl, (fallbackTrace_mem (List.mem_of_mem_getLast? hx)).2⟩)
      · intro x hx y hy
        have hx' : (40 : ℚ) = x := by simpa using hx
        subst hx'
        have hy' := List.mem_of_mem_head? hy
        rcases List.mem_append.1 hy' with hy' | hy'
        · exact Or.inl (by linarith [(fallbackTrace_mem hy').1])
        · have : y = 50 := by simpa using hy'
          subst this
          exact Or.inl (by norm_num)
    · rw [fallbackStageTrace_eq_of_fb_ok hp hfb]
      refine List.chain'_append.2 ⟨List.chain'_singleton _,
        (fallbackTrace_chain env).imp (fun _ _ h => Or.inl h), ?_⟩
      intro x hx y hy
      have hx' : (40 : ℚ) = x := by simpa using hx
      subst hx'
      exact Or.inl (by linarith [(fallbackTrace_mem (List.mem_of_mem_head? hy)).1])
  · rw [fallbackStageTrace_eq_of_primary_ok hp]
    simp

lemma fallbackStageTrace_chain_le (env : OcrEnv)
    (h : env.primary_ok = true ∨ OCRProcessor.tesseract_fallback_ok env = true) :
    List.Chain' (· ≤ ·) (fallbackStageTrace env) := by
  cases hp : env.primary_ok
  · rcases h with h | h
    · rw [hp] at h
      cases h
    · rw [fallbackStageTrace_eq_of_fb_ok hp h]
      refine List.chain'_append.2
        ⟨List.chain'_singleton _, fallbackTrace_chain env, ?_⟩
      intro x hx y hy
      have hx' : (40 : ℚ) = x := by simpa using hx
      subst hx'
      linarith [(fallbackTrace_mem (List.mem_of_mem_head? hy)).1]
  · rw [fallbackStageTrace_eq_of_primary_ok hp]
    simp

lemma finalStageTrace_mem {env : OcrEnv} {v : ℚ}
    (hv : v ∈ finalStageTrace env) : v = -1 ∨ v = 90 ∨ v = 100 := by
  unfold finalStageTrace at hv
  cases hc : OCRProcessor.chain_ok env <;> rw [hc] at hv
  · exact Or.inl (by simpa using hv)
  · have : v = 90 ∨ v = 100 := by simpa using hv
    exact Or.inr this

/-- C6 counterexample: with an existing, readable, non-encrypted input whose
primary OCR pass fails and whose single page fails per-page recognition
(while the minimal retry succeeds), the reported percentages are
`[0, 5, 10, 20, 40, 45, 45, 85, 50, 90, 100]`: the failed fallback's
`85` ("combining pages") is followed by the minimal retry's `50`, so the
sequence is not monotonically non-decreasing even though no `-1`
sentinel is emitted. -/
theorem C6_progress_monotonic_counterexample :
    OCRProcessor.progressTrace
        ⟨true, true, false, false, false, true, [false], none, true, true⟩
      = [0, 5, 10, 20, 40, 45, 45, 85, 50, 90, 100] ∧
    ¬ List.Chain' (· ≤ ·)
      (OCRProcessor.progressTrace
        ⟨true, true, false, false, false, true, [false], none, true, true⟩) ∧
    (-1 : ℚ) ∉ OCRProcessor.progressTrace
        ⟨true, true, false, false, false, true, [false], none, true, true⟩ := by
  have htr : OCRProcessor.progressTrace
      ⟨true, true, false, false, false, true, [false], none, true, true⟩
      = [0, 5, 10, 20, 40, 45, 45, 85, 50, 90, 100] := by
    norm_num [OCRProcessor.progressTrace, handleEncryptedTrace,
      fallbackStageTrace, fallbackTrace, fallbackLoopTrace, pageProgress,
      finalStageTrace, OCRProcessor.chain_ok, OCRProcessor.tesseract_fallback_ok,
      OCRProcessor.fallback_crashes, List.range_succ]
  refine ⟨htr, ?_, ?_⟩
  · rw [htr]
    norm_num [List.chain'_cons]
  · rw [htr]
    norm_num

/-- C6 amended: every percentage passed to the callback lies in `[0, 100]`
apart from the `-1` failure sentinel; the sentinel is emitted only on
calls whose strategy chain failed; the sequence is non-decreasing except
for a single possible drop onto the tertiary retry's `50`, coming from
the failed secondary fallback's last reported value, which is at most
`85` — the `85` of its combining step when the page loop finished, or a
partial per-page percentage below `85` when the rasterization crashed
mid-loop, or the initial `45`; in particular the sequence
is fully non-decreasing whenever the primary pass or the fallback
succeeds. -/
theorem C6_progress_amended (env : OcrEnv) :
    (∀ v ∈ OCRProcessor.progressTrace env, v = -1 ∨ (0 ≤ v ∧ v ≤ 100)) ∧
    List.Chain' progMono (OCRProcessor.progressTrace env) ∧
    ((-1 : ℚ) ∈ OCRProcessor.progressTrace env →
      (OCRProcessor.process_pdf env).success = false) ∧
    ((env.primary_ok = true ∨ OCRProcessor.tesseract_fallback_ok env = true) →
      List.Chain' (· ≤ ·) (OCRProcessor.progressTrace env)) := by
  cases hin : env.input_exists
  · refine ⟨?_, ?_, ?_, ?_⟩ <;>
      simp [OCRProcessor.progressTrace, OCRProcessor.process_pdf, hin]
  · have htr : OCRProcessor.progressTrace env
        = [0] ++ (handleEncryptedTrace env ++ (([10, 20] : List ℚ) ++
          (fallbackStageTrace env ++ finalStageTrace env))) := by
      simp [OCRProcessor.progressTrace, hin]
    refine ⟨?_, ?_, ?_, ?_⟩
    · intro v hv
      rw [htr] at hv
      rcases List.mem_append.1 hv with hv | hv
      · have : v = 0 := by simpa using hv
        subst this
        exact Or.inr (by norm_num)
      · rcases List.mem_append.1 hv with hv | hv
        · rcases handleEncryptedTrace_mem hv with h | h <;> subst h <;>
            exact Or.inr (by norm_num)
        · rcases List.mem_append.1 hv with hv | hv
          · have : v = 10 ∨ v = 20 := by simpa using hv
            rcases this with h | h <;> subst h <;> exact Or.inr (by norm_num)
          · rcases List.mem_append.1 hv with hv | hv
            · have h := fallbackStageTrace_mem hv
              exact Or.inr ⟨by linarith [h.1], by linarith [h.2]⟩
            · rcases finalStageTrace_mem hv with h | h | h
              · exact Or.inl h
              · subst h
                exact Or.inr (by norm_num)
              · subst h
                exact Or.inr (by norm_num)
    · rw [htr]
      refine List.chain'_append.2 ⟨List.chain'_singleton _, ?_, ?_⟩
      · refine List.chain'_append.2 ⟨?_, ?_, ?_⟩
        · rcases handleEncryptedTrace_cases env with h | h <;> rw [h] <;>
            norm_num [List.chain'_cons, progMono]
        · refine List.chain'_append.2 ⟨?_, ?_, ?_⟩
          · norm_num [List.chain'_cons, progMono]
          · refine List.chain'_append.2 ⟨fallbackStageTrace_chainR env, ?_, ?_⟩
            · unfold finalStageTrace
              cases hc : OCRProcessor.chain_ok env <;>
                norm_num [List.chain'_cons, progMono]
            · intro x hx y hy
              have hx' := fallbackStageTrace_mem (List.mem_of_mem_getLast? hx)
              rcases finalStageTrace_mem (List.mem_of_mem_head? hy) with h | h | h
              · exact Or.inr (Or.inr h)
              · exact Or.inl (by rw [h]; linarith [hx'.2])
              · exact Or.inl (by rw [h]; linarith [hx'.2])
          · intro x hx y hy
            have hx' : (20 : ℚ) = x := by simpa using hx
            subst hx'
            have hy' := List.mem_of_mem_head? hy
            rcases List.mem_append.1 hy' with hy' | hy'
            · exact Or.inl (by linarith [(fallbackStageTrace_mem hy').1])
            · rcases finalStageTrace_mem hy' with h | h | h
              · exact Or.inr (Or.inr h)
              · exact Or.inl (by rw [h]; norm_num)
              · exact Or.inl (by rw [h]; norm_num)
        · intro x hx y hy
          have hy' : (10 : ℚ) = y := by simpa using hy
          subst hy'
          rcases handleEncryptedTrace_mem (List.mem_of_mem_getLast? hx) with h | h <;>
            exact Or.inl (by rw [h]; norm_num)
      · intro x hx y hy
        have hx' : (0 : ℚ) = x := by simpa using hx
        subst hx'
        have hy' := List.mem_of_mem_head? hy
        rcases List.mem_append.1 hy' with hy' | hy'
        · rcases handleEncryptedTrace_mem hy' with h | h <;>
            exact Or.inl (by rw [h]; norm_num)
        · rcases List.mem_append.1 hy' with hy' | hy'
          · have : y = 10 ∨ y = 20 := by simpa using hy'
            rcases this with h | h <;> exact Or.inl (by rw [h]; norm_num)
          · rcases List.mem_append.1 hy' with hy' | hy'
            · exact Or.inl (by linarith [(fallbackStageTrace_mem hy').1])
            · rcases finalStageTrace_mem hy' with h | h | h
              · exact Or.inr (Or.inr h)
              · exact Or.inl (by rw [h]; norm_num)
              · exact Or.inl (by rw [h]; norm_num)
    · intro hm
      have hsucc : (OCRProcessor.process_pdf env).success
          = OCRProcessor.chain_ok env := by
        simp [OCRProcessor.process_pdf, hin]
      rw [hsucc]
      cases hc : OCRProcessor.chain_ok env
      · rfl
      · exfalso
        rw [htr] at hm
        rcases List.mem_append.1 hm with h | h
        · norm_num at h
        · rcases List.mem_append.1 h with h | h
          · rcases handleEncryptedTrace_mem h with h | h <;> norm_num at h
          · rcases List.mem_append.1 h with h | h
            · norm_num at h
            · rcases List.mem_append.1 h with h | h
              · linarith [(fallbackStageTrace_mem h).1]
              · unfold finalStageTrace at h
                rw [hc] at h
                norm_num at h
    · intro hok
      have hchain : OCRProcessor.chain_ok env = true := by
        rcases hok with h | h <;> simp [OCRProcessor.chain_ok, h]
      have hfin : finalStageTrace env = [90, 100] := by
        simp [finalStageTrace, hchain]
      rw [htr]
      refine List.chain'_append.2 ⟨List.chain'_singleton _, ?_, ?_⟩
      · refine List.chain'_append.2 ⟨?_, ?_, ?_⟩
        · rcases handleEncryptedTrace_cases env with h | h <;> rw [h] <;>
            norm_num [List.chain'_cons]
        · refine List.chain'_append.2 ⟨?_, ?_, ?_⟩
          · norm_num [List.chain'_cons]
          · refine List.chain'_append.2
              ⟨fallbackStageTrace_chain_le env hok, ?_, ?_⟩
            · rw [hfin]
              norm_num [List.chain'_cons]
            · intro x hx y hy
              rw [hfin] at hy
              have hy' : (90 : ℚ) = y := by simpa using hy
              subst hy'
              linarith [(fallbackStageTrace_mem (List.mem_of_mem_getLast? hx)).2]
          · intro x hx y hy
            have hx' : (20 : ℚ) = x := by simpa using hx
            subst hx'
            have hy' := List.mem_of_mem_head? hy
            rcases List.mem_append.1 hy' with hy' | hy'
            · linarith [(fallbackStageTrace_mem hy').1]
            · rw [hfin] at hy'
              have : y = 90 ∨ y = 100 := by simpa using hy'
              rcases this with h | h <;> rw [h] <;> norm_num
        · intro x hx y hy
          have hy' : (10 : ℚ) = y := by simpa using hy
          subst hy'
          rcases handleEncryptedTrace_mem (List.mem_of_mem_getLast? hx) with h | h <;>
            rw [h] <;> norm_num
      · intro x hx y hy
        have hx' : (0 : ℚ) = x := by simpa using hx
        subst hx'
        have hy' := List.mem_of_mem_head? hy
        rcases List.mem_append.1 hy' with hy' | hy'
        · rcases handleEncryptedTrace_mem hy' with h | h <;> rw [h] <;> norm_num
        · rcases List.mem_append.1 hy' with hy' | hy'
          · have : y = 10 ∨ y = 20 := by simpa using hy'
            rcases this with h | h <;> rw [h] <;> norm_num
          · rcases List.mem_append.1 hy' with hy' | hy'
            · linarith [(fallbackStageTrace_mem hy').1]
            · rw [hfin] at hy'
              have : y = 90 ∨ y = 100 := by simpa using hy'
              rcases this with h | h <;> rw [h] <;> norm_num

/-- Witness for C6 amended: when the primary pass succeeds the whole
reported sequence is non-decreasing. -/
theorem C6_progress_amended_witness :
    List.Chain' (· ≤ ·)
      (OCRProcessor.progressTrace
        ⟨true, true, false, false, true, true, [true], none, true, true⟩) :=
  (C6_progress_amended
      ⟨true, true, false, false, true, true, [true], none, true, true⟩).2.2.2
    (Or.inl rfl)

/-! ### Helper lemmas about `generate_output_filename` -/

/-- Complete characterization of the collision-avoidance loop: it returns
`some s` exactly when `s` is the first free candidate at or after the
loop counter `k`, found within `fuel` steps. -/
lemma findFreeName_eq_some {ex : String → Bool} {b e : String} :
    ∀ {fuel k : Nat} {s : String},
    (findFreeName ex b e fuel k = some s ↔
      ∃ j : Nat, k ≤ j ∧ j < k + fuel ∧ ex (candidate b e j) = false ∧
        (∀ i : Nat, k ≤ i → i < j → ex (candidate b e i) = true) ∧
        s = candidate b e j) := by
  intro fuel
  induction fuel with
  | zero =>
    intro k s
    constructor
    · intro h
      simp [findFreeName] at h
    · rintro ⟨j, hj1, hj2, -⟩
      omega
  | succ fuel ih =>
    intro k s
    cases hk : ex (candidate b e k)
    · have hred : findFreeName ex b e (fuel + 1) k = some (candidate b e k) := by
        simp [findFreeName, hk]
      rw [hred]
      constructor
      · intro h
        have hs : s = candidate b e k := by
          simpa using h.symm
        exact ⟨k, le_refl _, by omega, hk,
          fun i h1 h2 => absurd h2 (by omega), hs⟩
      · rintro ⟨j, hj1, hj2, hjex, hbelow, rfl⟩
        have hjk : j = k := by
          by_contra hne
          have hklt : k < j := lt_of_le_of_ne hj1 (Ne.symm hne)
          have := hbelow k (le_refl _) hklt
          rw [hk] at this
          cases this
        rw [hjk]
    · have hred : findFreeName ex b e (fuel + 1) k
          = findFreeName ex b e fuel (k + 1) := by
        simp [findFreeName, hk]
      rw [hred, ih]
      constructor
      · rintro ⟨j, hj1, hj2, hjex, hb, rfl⟩
        refine ⟨j, by omega, by omega, hjex, ?_, rfl⟩
        intro i h1 h2
        rcases Nat.eq_or_lt_of_le h1 with rfl | hlt
        · exact hk
        · exact hb i (by omega) h2
      · rintro ⟨j, hj1, hj2, hjex, hb, rfl⟩
        have hj1' : k + 1 ≤ j := by
          rcases Nat.eq_or_lt_of_le hj1 with rfl | h
          · rw [hjex] at hk
            cases hk
          · omega
        exact ⟨j, hj1', by omega, hjex, fun i h1 h2 => hb i (by omega) h2, rfl⟩

/-- The loop result depends only on the pointwise behaviour of the
existence test. -/
lemma findFreeName_congr {ex ex' : String → Bool} (h : ∀ x, ex x = ex' x)
    (b e : String) : ∀ fuel k : Nat,
    findFreeName ex b e fuel k = findFreeName ex' b e fuel k := by
  intro fuel
  induction fuel with
  | zero => intro k; rfl
  | succ fuel ih =>
    intro k
    simp only [findFreeName, h, ih]

/-- C9: `generate_output_filename` is idempotent — a second call with the
same arguments against an unchanged filesystem returns the same path
(the result depends on nothing but the arguments and the pointwise
existence test) — and the returned path never exists yet; once a file is
created at the returned path (candidate index `k`), the next call
returns a strictly later candidate `base_name + "_" + str(j) + ext`
(`j > k`, so `j ≥ 1`) which again does not exist. -/
theorem C9_output_name (ex : String → Bool) (stem sfx ext : String)
    (fuel fuel' : Nat) (s : String)
    (h1 : generate_output_filename ex stem sfx ext fuel = some s) :
    (∀ ex2 : String → Bool, (∀ x, ex2 x = ex x) →
      generate_output_filename ex2 stem sfx ext fuel = some s) ∧
    ex s = false ∧
    (∃ k : Nat, s = candidate (stem ++ sfx) ext k ∧
      (∀ i : Nat, i < k → ex (candidate (stem ++ sfx) ext i) = true) ∧
      (∀ s' : String,
        generate_output_filename (fun x => ex x || (x == s)) stem sfx ext fuel'
            = some s' →
        ∃ j : Nat, k < j ∧ 1 ≤ j ∧
          s' = (stem ++ sfx) ++ "_" ++ toString j ++ ext ∧
          ex s' = false ∧ s' ≠ s)) := by
  unfold generate_output_filename at h1
  rcases findFreeName_eq_some.1 h1 with ⟨k, -, hkf, hkex, hbelow, rfl⟩
  refine ⟨?_, hkex, k, rfl, fun i hi => hbelow i (by omega) hi, ?_⟩
  · intro ex2 h2
    unfold generate_output_filename
    rw [findFreeName_congr h2 (stem ++ sfx) ext fuel 0]
    exact h1
  · intro s' h3
    unfold generate_output_filename at h3
    rcases findFreeName_eq_some.1 h3 with ⟨j, -, hjf, hjex, hjbelow, rfl⟩
    have hkj : k < j := by
      rcases Nat.lt_trichotomy j k with h | rfl | h
      · have hik := hbelow j (by omega) h
        rw [Bool.or_eq_false_iff] at hjex
        rw [hik] at hjex
        cases hjex.1
      · rw [Bool.or_eq_false_iff] at hjex
        have := hjex.2
        rw [beq_self_eq_true] at this
        cases this
      · exact h
    have hj1 : j ≠ 0 := by omega
    rw [Bool.or_eq_false_iff] at hjex
    refine ⟨j, hkj, by omega, ?_, hjex.1, ?_⟩
    · unfold candidate
      rw [if_neg hj1]
    · intro he
      have := hjex.2
      rw [he, beq_self_eq_true] at this
      cases this

/-- Witness for C9: with only `a_processed.pdf` on disk, the generator
returns `a_processed_1.pdf`, which does not exist; after that file is
created, the next call returns `a_processed_2.pdf`. -/
theorem C9_output_name_witness :
    ("a_processed_1.pdf" == "a_processed.pdf") = false ∧
    generate_output_filename
        (fun x => (x == "a_processed.pdf") || (x == "a_processed_1.pdf"))
        "a" "_processed" ".pdf" 5 = some "a_processed_2.pdf" :=
  ⟨(C9_output_name (fun x => x == "a_processed.pdf") "a" "_processed" ".pdf"
      5 5 "a_processed_1.pdf" (by decide)).2.1,
    by decide⟩

end OCRProyecto
